import Mathlib

/-!
# A shallow embedding of `src/game.js` (the `GameClient` class)

The client is a single-threaded, event-driven program.  We embed the three
parts the specification makes claims about:

* the movement controller (`handleKeyDown`, `handleKeyUp`, the blur handler,
  `updateMovement`, `startContinuousMovement`, `stopContinuousMovement`,
  `sendMovementCommand`, `sendStopCommand`);
* the inbound protocol reducer (`ws.onmessage` / `handleServerMessage`);
* the viewport (`centerViewportOnPlayer`, `worldToScreen`).

Modelling conventions:

* JavaScript objects used as string-keyed tables (`keysPressed`, `players`,
  `avatars`, and inbound `players` payloads) are insertion-ordered association
  lists (`JsObj`).  JS object assignment to an existing key keeps the key's
  position; assignment to a fresh key appends it; `delete` removes it; this is
  exactly what `jsSet` / `jsDelete` do, and `Object.keys` enumeration order is
  the list order.
* JS `null`/`undefined`-able fields become `Option`; JS numbers become `ℚ`.
* `ws.send` is modelled by appending to an outbound log `sent`; the check
  `this.ws && this.ws.readyState === WebSocket.OPEN` is the flag `wsOpen`.
* `setInterval`/`clearInterval` handles are modelled by the flag
  `movementInterval` (whether a live resend timer exists).
* `JSON.parse` of an inbound frame either yields a typed message or throws;
  `ws.onmessage` is therefore `wsOnMessage : GameState → Option InMessage →
  Except String GameState`, where the `none` input is a frame whose parse
  fails and `Except.error` is an exception escaping the handler (the source
  has no try/catch around `JSON.parse`).
* A frame whose `action` matches no `switch` case is `InMessage.unknownAction`.
* JS property access with a `null` key coerces the key to the string
  `"null"` (`ToPropertyKey(null) = "null"`); `playerIdKey` models the lookup
  key used by `this.players[this.playerId]` / `message.players[this.playerId]`.
-/

namespace Game

/-- The four movement directions of the key map in `getDirectionFromKey`
(`game.js` lines 92–100). -/
inductive Direction : Type
  | up
  | down
  | left
  | right
deriving DecidableEq, Repr

/-- `getDirectionFromKey(key)` (`game.js` lines 92–100): the arrow keys map to
directions, every other key to `undefined` (here `none`). -/
def getDirectionFromKey (key : String) : Option Direction :=
  if key = "ArrowUp" then some Direction.up
  else if key = "ArrowDown" then some Direction.down
  else if key = "ArrowLeft" then some Direction.left
  else if key = "ArrowRight" then some Direction.right
  else none

/-- A player entity as used by the client: identifier, world position, facing,
animation frame, avatar key and display name. -/
structure Entity where
  id : String
  x : ℚ
  y : ℚ
  facing : String
  animationFrame : Nat
  avatar : String
  username : String
deriving DecidableEq, Repr

/-- An avatar definition: its key (`name`) and, per facing direction, an
ordered list of encoded frame bitmaps. -/
structure AvatarDef where
  name : String
  frames : List (String × List String)
deriving DecidableEq, Repr

/-- A JavaScript object used as a string-keyed table, as an insertion-ordered
association list. -/
abbrev JsObj (α : Type) : Type := List (String × α)

/-- Property read `o[k]`: the value at key `k`, or `none` (`undefined`). -/
def jsGet {α : Type} : JsObj α → String → Option α
  | [], _ => none
  | e :: t, k => if e.1 = k then some e.2 else jsGet t k

/-- Property write `o[k] = v`: overwrite in place when the key exists (JS
objects have unique keys, so at most the first entry matches), append a fresh
key at the end. -/
def jsSet {α : Type} : JsObj α → String → α → JsObj α
  | [], k, v => [(k, v)]
  | e :: t, k, v => if e.1 = k then (k, v) :: t else e :: jsSet t k v

/-- `delete o[k]`: drop the entry with key `k` (JS objects have unique keys;
recursing over the whole list removes exactly that entry). -/
def jsDelete {α : Type} : JsObj α → String → JsObj α
  | [], _ => []
  | e :: t, k => if e.1 = k then jsDelete t k else e :: jsDelete t k

/-- `Object.assign(o, upd)`: write every entry of `upd` into `o`, in order. -/
def jsAssign {α : Type} (o upd : JsObj α) : JsObj α :=
  upd.foldl (fun acc e => jsSet acc e.1 e.2) o

/-- Outbound protocol messages passed to `ws.send` (after `JSON.stringify`). -/
inductive OutMessage : Type
  | move (direction : Direction)
  | stop
  | joinGame (username : String)
deriving DecidableEq, Repr

/-- Inbound protocol messages, the result of `JSON.parse` on a frame, as
dispatched by the `switch (message.action)` in `handleServerMessage`.
The two `join_game` shapes split on the `success` field; a frame whose
`action` matches no case is `unknownAction`. -/
inductive InMessage : Type
  | joinGameSuccess (playerId : String) (players : JsObj Entity)
      (avatars : JsObj AvatarDef)
  | joinGameFailure (error : String)
  | playerJoined (player : Entity) (avatar : AvatarDef)
  | playersMoved (players : JsObj Entity)
  | playerLeft (playerId : String)
  | unknownAction (action : String)
deriving DecidableEq, Repr

/-- The mutable fields of the `GameClient` instance that the claims are about
(`game.js` lines 2–26), plus the outbound send log. -/
structure GameState where
  wsOpen : Bool
  sent : List OutMessage
  playerId : Option String
  players : JsObj Entity
  avatars : JsObj AvatarDef
  myPlayer : Option Entity
  viewportX : ℚ
  viewportY : ℚ
  canvasWidth : ℚ
  canvasHeight : ℚ
  worldWidth : ℚ
  worldHeight : ℚ
  keysPressed : List String
  currentMovement : Option Direction
  movementInterval : Bool
deriving DecidableEq, Repr

/-- The state built by the constructor (`game.js` lines 2–26): canvas size
comes from the window, the world is 2048×2048, everything else empty/null. -/
def initGameState (canvasWidth canvasHeight : ℚ) : GameState where
  wsOpen := false
  sent := []
  playerId := none
  players := []
  avatars := []
  myPlayer := none
  viewportX := 0
  viewportY := 0
  canvasWidth := canvasWidth
  canvasHeight := canvasHeight
  worldWidth := 2048
  worldHeight := 2048
  keysPressed := []
  currentMovement := none
  movementInterval := false

/-- `sendMovementCommand(direction)` (`game.js` lines 146–156): early return
when the socket is absent or not OPEN; otherwise send a `move` message and
set `currentMovement`. -/
def sendMovementCommand (s : GameState) (direction : Direction) : GameState :=
  if s.wsOpen = true then
    { s with sent := s.sent ++ [OutMessage.move direction],
             currentMovement := some direction }
  else s

/-- `sendStopCommand()` (`game.js` lines 158–167): early return when the
socket is absent or not OPEN; otherwise send a `stop` message and clear
`currentMovement`. -/
def sendStopCommand (s : GameState) : GameState :=
  if s.wsOpen = true then
    { s with sent := s.sent ++ [OutMessage.stop], currentMovement := none }
  else s

/-- `stopContinuousMovement()` (`game.js` lines 134–144): clear the resend
timer if one exists; if a movement is active, send a stop and clear it. -/
def stopContinuousMovement (s : GameState) : GameState :=
  let s1 := { s with movementInterval := false }
  match s1.currentMovement with
  | some _ => { sendStopCommand s1 with currentMovement := none }
  | none => s1

/-- `startContinuousMovement(direction)` (`game.js` lines 118–132): stop any
existing movement, set the active direction, send one immediate move command,
and arm the 100 ms resend timer. -/
def startContinuousMovement (s : GameState) (direction : Direction) : GameState :=
  let s1 := stopContinuousMovement s
  let s2 := { s1 with currentMovement := some direction }
  let s3 := sendMovementCommand s2 direction
  { s3 with movementInterval := true }

/-- `updateMovement()` (`game.js` lines 102–116): map the pressed keys (in
insertion order) through the key map, drop unmapped ones; if none remain stop,
otherwise take the first and restart continuous movement when it differs from
the active one. -/
def updateMovement (s : GameState) : GameState :=
  match s.keysPressed.filterMap getDirectionFromKey with
  | [] => stopContinuousMovement s
  | newMovement :: _ =>
      if s.currentMovement = some newMovement then s
      else startContinuousMovement s newMovement

/-- `handleKeyDown(event)` (`game.js` lines 72–80): for a recognized direction
key not already pressed, record it and recompute movement. -/
def handleKeyDown (s : GameState) (key : String) : GameState :=
  match getDirectionFromKey key with
  | none => s
  | some _ =>
      if key ∈ s.keysPressed then s
      else updateMovement { s with keysPressed := s.keysPressed ++ [key] }

/-- `handleKeyUp(event)` (`game.js` lines 82–90): for a recognized direction
key currently pressed, delete it and recompute movement. -/
def handleKeyUp (s : GameState) (key : String) : GameState :=
  match getDirectionFromKey key with
  | none => s
  | some _ =>
      if key ∈ s.keysPressed then
        updateMovement { s with keysPressed := s.keysPressed.filter fun k2 => k2 ≠ key }
      else s

/-- The window `blur` handler (`game.js` lines 66–69): clear the whole pressed
set, then stop continuous movement. -/
def handleBlur (s : GameState) : GameState :=
  stopContinuousMovement { s with keysPressed := [] }

/-- A raw keyboard event delivered to the document listeners. -/
inductive KeyEvent : Type
  | down (key : String)
  | up (key : String)
deriving DecidableEq, Repr

/-- Dispatch one keyboard event to its handler. -/
def applyKeyEvent (s : GameState) : KeyEvent → GameState
  | KeyEvent.down k => handleKeyDown s k
  | KeyEvent.up k => handleKeyUp s k

/-- Process a sequence of keyboard events in order. -/
def runKeyEvents (s : GameState) (es : List KeyEvent) : GameState :=
  es.foldl applyKeyEvent s

/-- The JS property key used by `this.players[this.playerId]` and
`message.players[this.playerId]`: property access coerces a `null` key to the
string `"null"`. -/
def playerIdKey : Option String → String
  | none => "null"
  | some id => id

/-- `centerViewportOnPlayer()` (`game.js` lines 241–256): no-op without a
local player; otherwise centre the viewport on the player and clamp each axis
with `max(0, min(offset, world - canvas))`. -/
def centerViewportOnPlayer (s : GameState) : GameState :=
  match s.myPlayer with
  | none => s
  | some p =>
      { s with
        viewportX := max 0 (min (p.x - s.canvasWidth / 2)
          (s.worldWidth - s.canvasWidth)),
        viewportY := max 0 (min (p.y - s.canvasHeight / 2)
          (s.worldHeight - s.canvasHeight)) }

/-- `worldToScreen(worldX, worldY)` (`game.js` lines 258–263): subtract the
viewport offset. -/
def worldToScreen (s : GameState) (worldX worldY : ℚ) : ℚ × ℚ :=
  (worldX - s.viewportX, worldY - s.viewportY)

/-- The inverse transform of `worldToScreen`, as the specification describes
it (screen point plus viewport offset).  The source has no named function for
it; it is the spec's `worldToScreen⁻¹`. -/
def screenToWorld (s : GameState) (screenX screenY : ℚ) : ℚ × ℚ :=
  (screenX + s.viewportX, screenY + s.viewportY)

/-- `handleServerMessage(message)` (`game.js` lines 200–239): the `switch` on
`message.action`.  Unknown actions fall through with no state change. -/
def handleServerMessage (s : GameState) (m : InMessage) : GameState :=
  match m with
  | InMessage.joinGameSuccess pid ps avs =>
      let s1 := { s with playerId := some pid, players := ps, avatars := avs }
      let s2 := { s1 with myPlayer := jsGet s1.players (playerIdKey s1.playerId) }
      centerViewportOnPlayer s2
  | InMessage.joinGameFailure _ => s
  | InMessage.playerJoined p a =>
      { s with players := jsSet s.players p.id p,
               avatars := jsSet s.avatars a.name a }
  | InMessage.playersMoved ps =>
      let s1 := { s with players := jsAssign s.players ps }
      match jsGet ps (playerIdKey s.playerId) with
      | some p => centerViewportOnPlayer { s1 with myPlayer := some p }
      | none => s1
  | InMessage.playerLeft pid =>
      { s with players := jsDelete s.players pid }
  | InMessage.unknownAction _ => s

/-- The `ws.onmessage` handler (`game.js` lines 177–180): `JSON.parse` the
frame, then dispatch.  A parse failure (`none`) throws out of the handler —
there is no try/catch — modelled as `Except.error "SyntaxError"`. -/
def wsOnMessage (s : GameState) (frame : Option InMessage) :
    Except String GameState :=
  match frame with
  | none => Except.error "SyntaxError"
  | some m => Except.ok (handleServerMessage s m)

/-- `joinGame()` (`game.js` lines 191–198): send the join request (called from
`onopen`, with no readyState guard). -/
def joinGame (s : GameState) : GameState :=
  { s with sent := s.sent ++ [OutMessage.joinGame "Tim"] }

/-! ## Association-list (JS object) lemmas -/

theorem jsGet_jsSet {α : Type} (o : JsObj α) (k : String) (v : α) (id : String) :
    jsGet (jsSet o k v) id = if id = k then some v else jsGet o id := by
  induction o with
  | nil =>
      simp only [jsSet, jsGet]
      by_cases h : id = k
      · rw [if_pos h.symm, if_pos h]
      · rw [if_neg fun h2 => h h2.symm, if_neg h]
  | cons e t ih =>
      simp only [jsSet]
      by_cases he : e.1 = k
      · rw [if_pos he]
        simp only [jsGet]
        by_cases h : id = k
        · rw [if_pos h.symm, if_pos h]
        · rw [if_neg fun h2 => h h2.symm, if_neg h,
            if_neg fun h2 => h (h2.symm.trans he)]
      · rw [if_neg he]
        simp only [jsGet, ih]
        by_cases h2 : e.1 = id
        · rw [if_pos h2, if_neg fun h3 => he (h2.trans h3), if_pos h2]
        · rw [if_neg h2, if_neg h2]

theorem jsGet_eq_none_of_not_mem {α : Type} (o : JsObj α) (k : String)
    (h : k ∉ o.map Prod.fst) : jsGet o k = none := by
  induction o with
  | nil => rfl
  | cons e t ih =>
      simp only [List.map_cons, List.mem_cons, not_or] at h
      rw [jsGet, if_neg fun h2 => h.1 h2.symm]
      exact ih h.2

theorem jsGet_jsAssign_of_none {α : Type} (upd : JsObj α) (o : JsObj α)
    (id : String) (h : jsGet upd id = none) :
    jsGet (jsAssign o upd) id = jsGet o id := by
  induction upd generalizing o with
  | nil => rfl
  | cons e t ih =>
      rw [jsGet] at h
      by_cases he : e.1 = id
      · rw [if_pos he] at h; exact absurd h (by simp)
      · rw [if_neg he] at h
        show jsGet (jsAssign (jsSet o e.1 e.2) t) id = jsGet o id
        rw [ih _ h, jsGet_jsSet, if_neg fun h2 => he h2.symm]

theorem jsGet_jsAssign_of_some {α : Type} (upd : JsObj α) (o : JsObj α)
    (id : String) (v : α) (hn : (upd.map Prod.fst).Nodup)
    (h : jsGet upd id = some v) :
    jsGet (jsAssign o upd) id = some v := by
  induction upd generalizing o with
  | nil => exact absurd h (by simp [jsGet])
  | cons e t ih =>
      simp only [List.map_cons, List.nodup_cons] at hn
      rw [jsGet] at h
      show jsGet (jsAssign (jsSet o e.1 e.2) t) id = some v
      by_cases he : e.1 = id
      · rw [if_pos he] at h
        have ht : jsGet t id = none := jsGet_eq_none_of_not_mem t id (he ▸ hn.1)
        rw [jsGet_jsAssign_of_none t _ id ht, jsGet_jsSet, if_pos he.symm, h]
      · rw [if_neg he] at h
        exact ih _ hn.2 h

theorem jsGet_jsDelete {α : Type} (o : JsObj α) (k : String) (id : String) :
    jsGet (jsDelete o k) id = if id = k then none else jsGet o id := by
  induction o with
  | nil =>
      simp only [jsDelete, jsGet]
      by_cases h : id = k
      · rw [if_pos h]
      · rw [if_neg h]
  | cons e t ih =>
      simp only [jsDelete]
      by_cases he : e.1 = k
      · rw [if_pos he, ih]
        simp only [jsGet]
        by_cases h : id = k
        · rw [if_pos h, if_pos h]
        · rw [if_neg h, if_neg h, if_neg fun h2 => h (h2.symm.trans he)]
      · rw [if_neg he]
        simp only [jsGet, ih]
        by_cases h2 : e.1 = id
        · rw [if_pos h2, if_neg fun h3 => he (h2.trans h3), if_pos h2]
        · rw [if_neg h2, if_neg h2]

/-! ## Field-preservation lemmas for the movement controller and viewport -/

theorem centerViewportOnPlayer_fields (s : GameState) :
    (centerViewportOnPlayer s).playerId = s.playerId ∧
    (centerViewportOnPlayer s).players = s.players ∧
    (centerViewportOnPlayer s).avatars = s.avatars ∧
    (centerViewportOnPlayer s).myPlayer = s.myPlayer := by
  cases h : s.myPlayer <;> simp [centerViewportOnPlayer, h]

theorem stopContinuousMovement_fields (s : GameState) :
    (stopContinuousMovement s).currentMovement = none ∧
    (stopContinuousMovement s).keysPressed = s.keysPressed ∧
    (stopContinuousMovement s).movementInterval = false ∧
    (stopContinuousMovement s).wsOpen = s.wsOpen := by
  cases h : s.currentMovement <;>
    by_cases ho : s.wsOpen = true <;>
      simp [stopContinuousMovement, sendStopCommand, h, ho]

theorem startContinuousMovement_fields (s : GameState) (d : Direction) :
    (startContinuousMovement s d).currentMovement = some d ∧
    (startContinuousMovement s d).keysPressed = s.keysPressed ∧
    (startContinuousMovement s d).movementInterval = true ∧
    (startContinuousMovement s d).wsOpen = s.wsOpen := by
  have hs := stopContinuousMovement_fields s
  by_cases ho : s.wsOpen = true <;>
    simp [startContinuousMovement, sendMovementCommand, hs.2.1, hs.2.2.2, ho]

/-- Behaviour of `updateMovement` on a state whose pressed keys are all
recognized: the pressed set is untouched and the active direction becomes the
direction of the earliest-pressed key (or `none` when no key is held). -/
theorem updateMovement_spec (s : GameState)
    (hk : ∀ k ∈ s.keysPressed, (getDirectionFromKey k).isSome = true) :
    (updateMovement s).keysPressed = s.keysPressed ∧
    (updateMovement s).currentMovement
      = s.keysPressed.head?.bind getDirectionFromKey := by
  cases hl : s.keysPressed with
  | nil =>
      have hs := stopContinuousMovement_fields s
      simp [updateMovement, hl, hs.1, hs.2.1]
  | cons k t =>
      have hk1 : (getDirectionFromKey k).isSome = true :=
        hk k (by rw [hl]; exact List.mem_cons_self k t)
      obtain ⟨d, hd⟩ := Option.isSome_iff_exists.mp hk1
      by_cases hc : s.currentMovement = some d
      · simp [updateMovement, hl, List.filterMap_cons, hd, hc]
      · have hs := startContinuousMovement_fields s d
        simp [updateMovement, hl, List.filterMap_cons, hd, hc, hs.1, hs.2.1]

/-! ## The movement-controller invariant -/

/-- Every pressed key is a recognized direction key, and the active movement
direction is the direction of the earliest-pressed key still held (so `none`
exactly when no key is held). -/
def movementInvariant (s : GameState) : Prop :=
  (∀ k ∈ s.keysPressed, (getDirectionFromKey k).isSome = true) ∧
  s.currentMovement = s.keysPressed.head?.bind getDirectionFromKey

theorem movementInvariant_init (w h : ℚ) :
    movementInvariant (initGameState w h) := by
  constructor
  · intro k hk
    simp [initGameState] at hk
  · rfl

theorem movementInvariant_updateMovement (s : GameState)
    (hk : ∀ k ∈ s.keysPressed, (getDirectionFromKey k).isSome = true) :
    movementInvariant (updateMovement s) := by
  have h := updateMovement_spec s hk
  refine ⟨?_, ?_⟩
  · rw [h.1]; exact hk
  · rw [h.1, h.2]

theorem movementInvariant_handleKeyDown (s : GameState) (key : String)
    (h : movementInvariant s) : movementInvariant (handleKeyDown s key) := by
  unfold handleKeyDown
  cases hd : getDirectionFromKey key with
  | none => exact h
  | some d =>
      by_cases hmem : key ∈ s.keysPressed
      · rw [if_pos hmem]; exact h
      · rw [if_neg hmem]
        refine movementInvariant_updateMovement _ ?_
        intro k hk
        rcases List.mem_append.mp hk with hk1 | hk1
        · exact h.1 k hk1
        · rw [List.mem_singleton.mp hk1, hd]; rfl

theorem movementInvariant_handleKeyUp (s : GameState) (key : String)
    (h : movementInvariant s) : movementInvariant (handleKeyUp s key) := by
  unfold handleKeyUp
  cases hd : getDirectionFromKey key with
  | none => exact h
  | some d =>
      by_cases hmem : key ∈ s.keysPressed
      · rw [if_pos hmem]
        refine movementInvariant_updateMovement _ ?_
        intro k hk
        exact h.1 k (List.mem_of_mem_filter hk)
      · rw [if_neg hmem]; exact h

theorem movementInvariant_applyKeyEvent (s : GameState) (e : KeyEvent)
    (h : movementInvariant s) : movementInvariant (applyKeyEvent s e) := by
  cases e with
  | down k => exact movementInvariant_handleKeyDown s k h
  | up k => exact movementInvariant_handleKeyUp s k h

theorem movementInvariant_runKeyEvents (s : GameState) (es : List KeyEvent)
    (h : movementInvariant s) : movementInvariant (runKeyEvents s es) := by
  induction es generalizing s with
  | nil => exact h
  | cons e t ih =>
      unfold runKeyEvents
      rw [List.foldl_cons]
      exact ih (applyKeyEvent s e) (movementInvariant_applyKeyEvent s e h)

/-- When a movement is active and the socket is open, stopping appends exactly
one `stop` message to the outbound log. -/
theorem stopContinuousMovement_sent_of_active (s : GameState) (d : Direction)
    (hc : s.currentMovement = some d) (hw : s.wsOpen = true) :
    (stopContinuousMovement s).sent = s.sent ++ [OutMessage.stop] := by
  simp [stopContinuousMovement, sendStopCommand, hc, hw]

/-! ## Field characterizations of the protocol reducer, per event -/

theorem handleServerMessage_joinGameSuccess_fields (s : GameState)
    (pid : String) (ps : JsObj Entity) (avs : JsObj AvatarDef) :
    (handleServerMessage s (InMessage.joinGameSuccess pid ps avs)).playerId
        = some pid ∧
    (handleServerMessage s (InMessage.joinGameSuccess pid ps avs)).players = ps ∧
    (handleServerMessage s (InMessage.joinGameSuccess pid ps avs)).avatars = avs ∧
    (handleServerMessage s (InMessage.joinGameSuccess pid ps avs)).myPlayer
        = jsGet ps pid := by
  have hf := centerViewportOnPlayer_fields
    { s with playerId := some pid, players := ps, avatars := avs,
             myPlayer := jsGet ps pid }
  exact ⟨hf.1, hf.2.1, hf.2.2.1, hf.2.2.2⟩

theorem handleServerMessage_playerJoined_fields (s : GameState) (p : Entity)
    (a : AvatarDef) :
    (handleServerMessage s (InMessage.playerJoined p a)).playerId = s.playerId ∧
    (handleServerMessage s (InMessage.playerJoined p a)).players
        = jsSet s.players p.id p ∧
    (handleServerMessage s (InMessage.playerJoined p a)).avatars
        = jsSet s.avatars a.name a ∧
    (handleServerMessage s (InMessage.playerJoined p a)).myPlayer = s.myPlayer :=
  ⟨rfl, rfl, rfl, rfl⟩

theorem handleServerMessage_playersMoved_fields (s : GameState)
    (upd : JsObj Entity) :
    (handleServerMessage s (InMessage.playersMoved upd)).playerId = s.playerId ∧
    (handleServerMessage s (InMessage.playersMoved upd)).players
        = jsAssign s.players upd ∧
    (handleServerMessage s (InMessage.playersMoved upd)).avatars = s.avatars ∧
    (handleServerMessage s (InMessage.playersMoved upd)).myPlayer
        = (jsGet upd (playerIdKey s.playerId)).elim s.myPlayer some := by
  cases hq : jsGet upd (playerIdKey s.playerId) with
  | none => simp [handleServerMessage, hq]
  | some p =>
      simp only [handleServerMessage, hq]
      have hf := centerViewportOnPlayer_fields
        { s with players := jsAssign s.players upd, myPlayer := some p }
      exact ⟨hf.1, hf.2.1, hf.2.2.1, hf.2.2.2⟩

theorem handleServerMessage_playerLeft_fields (s : GameState) (pid : String) :
    (handleServerMessage s (InMessage.playerLeft pid)).playerId = s.playerId ∧
    (handleServerMessage s (InMessage.playerLeft pid)).players
        = jsDelete s.players pid ∧
    (handleServerMessage s (InMessage.playerLeft pid)).avatars = s.avatars ∧
    (handleServerMessage s (InMessage.playerLeft pid)).myPlayer = s.myPlayer :=
  ⟨rfl, rfl, rfl, rfl⟩

/-! ## Sample states and entities used by the concrete witnesses -/

def sampleEntityA : Entity :=
  { id := "p1", x := 100, y := 1900, facing := "south", animationFrame := 0,
    avatar := "a1", username := "Tim" }

def sampleEntityB : Entity :=
  { id := "p2", x := 300, y := 400, facing := "north", animationFrame := 1,
    avatar := "a2", username := "Ann" }

def sampleEntityB2 : Entity :=
  { id := "p2", x := 310, y := 400, facing := "east", animationFrame := 2,
    avatar := "a2", username := "Ann" }

/-- A state with the socket open and one arrow key held. -/
def sampleOpenState : GameState :=
  { initGameState 800 600 with
      wsOpen := true,
      keysPressed := ["ArrowLeft"],
      currentMovement := some Direction.left,
      movementInterval := true }

/-- A state with a local player set. -/
def sampleCenteredState : GameState :=
  { initGameState 800 600 with myPlayer := some sampleEntityA }

/-- A state holding two player entities. -/
def sampleTwoPlayerState : GameState :=
  { initGameState 800 600 with
      playerId := some "p1",
      players := [("p1", sampleEntityA), ("p2", sampleEntityB)],
      myPlayer := some sampleEntityA }

/-! ## The claims -/

/-- C1: for every sequence of key-down/key-up events for recognized or
unrecognized keys, processed from any state satisfying the movement
invariant (such as the constructor's state), after each event the active
movement direction (`currentMovement`) equals the direction of the
earliest-pressed key still held, and is `none` if and only if no recognized
key is held. -/
theorem claim1_currentMovement_earliest_pressed (s0 : GameState)
    (h : movementInvariant s0) (es : List KeyEvent) :
    (runKeyEvents s0 es).currentMovement
      = (runKeyEvents s0 es).keysPressed.head?.bind getDirectionFromKey ∧
    ((runKeyEvents s0 es).currentMovement = none ↔
      (runKeyEvents s0 es).keysPressed = []) := by
  have hI := movementInvariant_runKeyEvents s0 es h
  refine ⟨hI.2, ?_, ?_⟩
  · intro hn
    cases hl : (runKeyEvents s0 es).keysPressed with
    | nil => rfl
    | cons k t =>
        have hk := hI.1 k (by rw [hl]; exact List.mem_cons_self k t)
        obtain ⟨d, hd⟩ := Option.isSome_iff_exists.mp hk
        rw [hI.2, hl] at hn
        simp [hd] at hn
  · intro hl
    rw [hI.2, hl]
    rfl

theorem claim1_witness :
    movementInvariant (initGameState 800 600) ∧
    ((runKeyEvents (initGameState 800 600)
        [KeyEvent.down "ArrowRight", KeyEvent.down "ArrowUp",
          KeyEvent.up "ArrowRight"]).currentMovement
      = (runKeyEvents (initGameState 800 600)
        [KeyEvent.down "ArrowRight", KeyEvent.down "ArrowUp",
          KeyEvent.up "ArrowRight"]).keysPressed.head?.bind getDirectionFromKey ∧
    ((runKeyEvents (initGameState 800 600)
        [KeyEvent.down "ArrowRight", KeyEvent.down "ArrowUp",
          KeyEvent.up "ArrowRight"]).currentMovement = none ↔
      (runKeyEvents (initGameState 800 600)
        [KeyEvent.down "ArrowRight", KeyEvent.down "ArrowUp",
          KeyEvent.up "ArrowRight"]).keysPressed = [])) :=
  ⟨movementInvariant_init 800 600,
    claim1_currentMovement_earliest_pressed (initGameState 800 600)
      (movementInvariant_init 800 600)
      [KeyEvent.down "ArrowRight", KeyEvent.down "ArrowUp",
        KeyEvent.up "ArrowRight"]⟩

/-- C6: from any controller state satisfying the movement invariant and with
the transport open, the key-up that releases the last held key, and a blur
event while keys are held, each append exactly one `stop` message to the
outbound log and cancel the resend timer. -/
theorem claim6_stop_once_on_release_or_blur (s : GameState)
    (hI : movementInvariant s) (hw : s.wsOpen = true) :
    (∀ k, s.keysPressed = [k] →
      (handleKeyUp s k).sent = s.sent ++ [OutMessage.stop] ∧
      (handleKeyUp s k).movementInterval = false) ∧
    (s.keysPressed ≠ [] →
      (handleBlur s).sent = s.sent ++ [OutMessage.stop] ∧
      (handleBlur s).movementInterval = false) := by
  constructor
  · intro k hk
    have hmem : k ∈ s.keysPressed := by rw [hk]; exact List.mem_cons_self k []
    have hkd := hI.1 k hmem
    obtain ⟨d, hd⟩ := Option.isSome_iff_exists.mp hkd
    have hcm : s.currentMovement = some d := by rw [hI.2, hk]; simp [hd]
    have hfilter : s.keysPressed.filter (fun k2 => k2 ≠ k) = [] := by
      rw [hk]; simp
    simp only [handleKeyUp, hd, if_pos hmem, hfilter]
    have hupd : updateMovement { s with keysPressed := ([] : List String) }
        = stopContinuousMovement { s with keysPressed := ([] : List String) } := by
      simp [updateMovement]
    rw [hupd]
    exact ⟨stopContinuousMovement_sent_of_active _ d hcm hw,
      (stopContinuousMovement_fields _).2.2.1⟩
  · intro hne
    obtain ⟨k, t, hk⟩ := List.exists_cons_of_ne_nil hne
    have hkd := hI.1 k (by rw [hk]; exact List.mem_cons_self k t)
    obtain ⟨d, hd⟩ := Option.isSome_iff_exists.mp hkd
    have hcm : s.currentMovement = some d := by rw [hI.2, hk]; simp [hd]
    unfold handleBlur
    exact ⟨stopContinuousMovement_sent_of_active _ d hcm hw,
      (stopContinuousMovement_fields _).2.2.1⟩

theorem claim6_witness :
    movementInvariant sampleOpenState ∧ sampleOpenState.wsOpen = true ∧
    ((handleKeyUp sampleOpenState "ArrowLeft").sent
        = sampleOpenState.sent ++ [OutMessage.stop] ∧
      (handleKeyUp sampleOpenState "ArrowLeft").movementInterval = false) ∧
    ((handleBlur sampleOpenState).sent
        = sampleOpenState.sent ++ [OutMessage.stop] ∧
      (handleBlur sampleOpenState).movementInterval = false) := by
  have hI : movementInvariant sampleOpenState :=
    ⟨fun k hk => by rw [List.mem_singleton.mp hk]; rfl, rfl⟩
  exact ⟨hI, rfl,
    (claim6_stop_once_on_release_or_blur sampleOpenState hI rfl).1 "ArrowLeft" rfl,
    (claim6_stop_once_on_release_or_blur sampleOpenState hI rfl).2 (by decide)⟩

/-- C3: for every entity position (including out-of-bounds ones), after
`centerViewportOnPlayer` the viewport offset on each axis equals the entity
position minus half the surface size clamped with
`max 0 (min offset (worldBounds - surfaceSize))`, and — whenever the surface
does not exceed the world on that axis, so that the interval is non-empty —
the offset lies within `[0, worldBounds - surfaceSize]`. -/
theorem claim3_viewport_clamped (s : GameState) (p : Entity)
    (hp : s.myPlayer = some p) :
    (centerViewportOnPlayer s).viewportX
      = max 0 (min (p.x - s.canvasWidth / 2) (s.worldWidth - s.canvasWidth)) ∧
    (centerViewportOnPlayer s).viewportY
      = max 0 (min (p.y - s.canvasHeight / 2) (s.worldHeight - s.canvasHeight)) ∧
    (s.canvasWidth ≤ s.worldWidth →
      0 ≤ (centerViewportOnPlayer s).viewportX ∧
      (centerViewportOnPlayer s).viewportX ≤ s.worldWidth - s.canvasWidth) ∧
    (s.canvasHeight ≤ s.worldHeight →
      0 ≤ (centerViewportOnPlayer s).viewportY ∧
      (centerViewportOnPlayer s).viewportY ≤ s.worldHeight - s.canvasHeight) := by
  have hx : (centerViewportOnPlayer s).viewportX
      = max 0 (min (p.x - s.canvasWidth / 2) (s.worldWidth - s.canvasWidth)) := by
    simp [centerViewportOnPlayer, hp]
  have hy : (centerViewportOnPlayer s).viewportY
      = max 0 (min (p.y - s.canvasHeight / 2) (s.worldHeight - s.canvasHeight)) := by
    simp [centerViewportOnPlayer, hp]
  refine ⟨hx, hy, ?_, ?_⟩
  · intro hcw
    rw [hx]
    exact ⟨le_max_left 0 _, max_le (by linarith) (min_le_right _ _)⟩
  · intro hch
    rw [hy]
    exact ⟨le_max_left 0 _, max_le (by linarith) (min_le_right _ _)⟩

theorem claim3_witness :
    sampleCenteredState.myPlayer = some sampleEntityA ∧
    ((centerViewportOnPlayer sampleCenteredState).viewportX
      = max 0 (min (sampleEntityA.x - sampleCenteredState.canvasWidth / 2)
          (sampleCenteredState.worldWidth - sampleCenteredState.canvasWidth)) ∧
    (centerViewportOnPlayer sampleCenteredState).viewportY
      = max 0 (min (sampleEntityA.y - sampleCenteredState.canvasHeight / 2)
          (sampleCenteredState.worldHeight - sampleCenteredState.canvasHeight)) ∧
    (sampleCenteredState.canvasWidth ≤ sampleCenteredState.worldWidth →
      0 ≤ (centerViewportOnPlayer sampleCenteredState).viewportX ∧
      (centerViewportOnPlayer sampleCenteredState).viewportX
        ≤ sampleCenteredState.worldWidth - sampleCenteredState.canvasWidth) ∧
    (sampleCenteredState.canvasHeight ≤ sampleCenteredState.worldHeight →
      0 ≤ (centerViewportOnPlayer sampleCenteredState).viewportY ∧
      (centerViewportOnPlayer sampleCenteredState).viewportY
        ≤ sampleCenteredState.worldHeight - sampleCenteredState.canvasHeight)) :=
  ⟨rfl, claim3_viewport_clamped sampleCenteredState sampleEntityA rfl⟩

/-- C7: applying a `players_moved` event whose payload holds a subset of the
identifiers (a JSON object, hence with no duplicate keys) replaces exactly
the entries for the identifiers in the payload and leaves every other entry —
the whole entity value, so all of its attributes — unchanged. -/
theorem claim7_playersMoved_partial_merge (s : GameState) (upd : JsObj Entity)
    (hn : (upd.map Prod.fst).Nodup) :
    (∀ id, jsGet upd id = none →
      jsGet (handleServerMessage s (InMessage.playersMoved upd)).players id
        = jsGet s.players id) ∧
    (∀ id v, jsGet upd id = some v →
      jsGet (handleServerMessage s (InMessage.playersMoved upd)).players id
        = some v) := by
  have hp : (handleServerMessage s (InMessage.playersMoved upd)).players
      = jsAssign s.players upd := by
    simp only [handleServerMessage]
    cases hq : jsGet upd (playerIdKey s.playerId) with
    | none => rfl
    | some p => exact (centerViewportOnPlayer_fields _).2.1
  refine ⟨?_, ?_⟩
  · intro id h
    rw [hp]
    exact jsGet_jsAssign_of_none upd s.players id h
  · intro id v h
    rw [hp]
    exact jsGet_jsAssign_of_some upd s.players id v hn h

theorem claim7_witness :
    (([("p2", sampleEntityB2)] : JsObj Entity).map Prod.fst).Nodup ∧
    jsGet (handleServerMessage sampleTwoPlayerState
        (InMessage.playersMoved [("p2", sampleEntityB2)])).players "p1"
      = jsGet sampleTwoPlayerState.players "p1" ∧
    jsGet (handleServerMessage sampleTwoPlayerState
        (InMessage.playersMoved [("p2", sampleEntityB2)])).players "p2"
      = some sampleEntityB2 :=
  ⟨by decide,
    (claim7_playersMoved_partial_merge sampleTwoPlayerState
      [("p2", sampleEntityB2)] (by decide)).1 "p1" (by decide),
    (claim7_playersMoved_partial_merge sampleTwoPlayerState
      [("p2", sampleEntityB2)] (by decide)).2 "p2" sampleEntityB2 (by decide)⟩

/-- C8: when the transport is not currently open, sending a move or stop
intent is a silent no-op: the state (including the outbound log, so nothing
is sent or queued) is returned unchanged, and both functions are total, so
nothing is thrown. -/
theorem claim8_send_noop_when_closed (s : GameState) (d : Direction)
    (h : s.wsOpen = false) :
    sendMovementCommand s d = s ∧ sendStopCommand s = s := by
  constructor <;> simp [sendMovementCommand, sendStopCommand, h]

theorem claim8_witness :
    (initGameState 800 600).wsOpen = false ∧
    sendMovementCommand (initGameState 800 600) Direction.up
      = initGameState 800 600 ∧
    sendStopCommand (initGameState 800 600) = initGameState 800 600 :=
  ⟨rfl, (claim8_send_noop_when_closed (initGameState 800 600) Direction.up rfl).1,
    (claim8_send_noop_when_closed (initGameState 800 600) Direction.up rfl).2⟩

/-- C9: `worldToScreen` is the pure translation by the viewport offset — for
every world point it returns the point minus the offset, and composing it
with its inverse (adding the offset back) in either order returns the point
exactly. -/
theorem claim9_worldToScreen_translation (s : GameState) (wx wy sx sy : ℚ) :
    worldToScreen s wx wy = (wx - s.viewportX, wy - s.viewportY) ∧
    worldToScreen s (screenToWorld s sx sy).1 (screenToWorld s sx sy).2
      = (sx, sy) ∧
    screenToWorld s (worldToScreen s wx wy).1 (worldToScreen s wx wy).2
      = (wx, wy) := by
  refine ⟨rfl, ?_, ?_⟩ <;> simp [worldToScreen, screenToWorld]

/-- C2 fails as stated: `ws.onmessage` calls `JSON.parse` with no try/catch,
so a malformed frame makes the handler throw (here: return `Except.error`)
instead of logging and dropping the frame without throwing. -/
theorem claim2_counterexample :
    wsOnMessage (initGameState 800 600) none = Except.error "SyntaxError" :=
  rfl

/-- C2 (amended): a frame carrying an unknown action tag is dropped without
throwing and the entire state — players, avatars, playerId, myPlayer and
viewport included — is unchanged; a frame whose JSON parse fails also leaves
the state unchanged (the reducer is never reached), but the parse exception
escapes the message handler uncaught instead of being caught and logged. -/
theorem claim2_amended_malformed_frames (s : GameState) (a : String) :
    wsOnMessage s (some (InMessage.unknownAction a)) = Except.ok s ∧
    wsOnMessage s none = Except.error "SyntaxError" :=
  ⟨rfl, rfl⟩

/-- The local-player reference is exactly the table entry stored under the
local session's id, whenever an id is set. -/
def myPlayerAligned (s : GameState) : Prop :=
  ∀ pid, s.playerId = some pid → s.myPlayer = jsGet s.players pid

/-- Inbound events that do not rip the local player's table entry out from
under the alias: anything except a `player_joined` whose entity carries the
local id or a `player_left` for the local id; a `players_moved` payload is a
parsed JSON object, hence has no duplicate keys. -/
def eventKeepsAlias (s : GameState) : InMessage → Prop
  | InMessage.playerJoined p _ => s.playerId ≠ some p.id
  | InMessage.playersMoved upd => (upd.map Prod.fst).Nodup
  | InMessage.playerLeft pid => s.playerId ≠ some pid
  | _ => True

/-- C4 fails as stated: after a successful join, a `player_left` frame
carrying the local player's own id deletes the table entry but leaves
`myPlayer` pointing at the removed entity, so the local-player reference is
no longer the entity stored under `playerId`. -/
theorem claim4_counterexample :
    (handleServerMessage (handleServerMessage (initGameState 800 600)
        (InMessage.joinGameSuccess "p1" [("p1", sampleEntityA)] []))
        (InMessage.playerLeft "p1")).playerId = some "p1" ∧
    (handleServerMessage (handleServerMessage (initGameState 800 600)
        (InMessage.joinGameSuccess "p1" [("p1", sampleEntityA)] []))
        (InMessage.playerLeft "p1")).myPlayer = some sampleEntityA ∧
    jsGet (handleServerMessage (handleServerMessage (initGameState 800 600)
        (InMessage.joinGameSuccess "p1" [("p1", sampleEntityA)] []))
        (InMessage.playerLeft "p1")).players "p1" = none := by
  exact ⟨by decide, by decide, by decide⟩

/-- C4 (amended): the alias `myPlayer = players[playerId]` is preserved by
every inbound event except a `player_joined` replacing the local player's own
entry or a `player_left` removing it (which leave a stale reference); and —
since the table is keyed by identifier — when its keys are distinct, at most
one entry sits under the local id. -/
theorem claim4_amended_alias (s : GameState) (m : InMessage)
    (h : myPlayerAligned s) (hm : eventKeepsAlias s m) :
    myPlayerAligned (handleServerMessage s m) ∧
    (∀ pid, ((handleServerMessage s m).players.map Prod.fst).Nodup →
      ((handleServerMessage s m).players.map Prod.fst).count pid ≤ 1) := by
  refine ⟨?_, fun pid hnd => List.nodup_iff_count_le_one.mp hnd pid⟩
  cases m with
  | joinGameSuccess pid2 ps avs =>
      intro pid hpid
      have hf := handleServerMessage_joinGameSuccess_fields s pid2 ps avs
      rw [hf.1] at hpid
      rw [hf.2.2.2, hf.2.1, Option.some.inj hpid]
  | joinGameFailure err =>
      intro pid hpid
      exact h pid hpid
  | playerJoined p a =>
      intro pid hpid
      have hf := handleServerMessage_playerJoined_fields s p a
      rw [hf.1] at hpid
      have hne : ¬pid = p.id := fun hcon => hm (hpid.trans (congrArg some hcon))
      rw [hf.2.2.2, hf.2.1, jsGet_jsSet, if_neg hne]
      exact h pid hpid
  | playersMoved upd =>
      intro pid hpid
      have hf := handleServerMessage_playersMoved_fields s upd
      rw [hf.1] at hpid
      rw [hf.2.2.2, hf.2.1, hpid]
      simp only [playerIdKey]
      cases hq : jsGet upd pid with
      | none =>
          simp only [Option.elim]
          rw [jsGet_jsAssign_of_none upd s.players pid hq]
          exact h pid hpid
      | some p =>
          simp only [Option.elim]
          rw [jsGet_jsAssign_of_some upd s.players pid p hm hq]
  | playerLeft pid2 =>
      intro pid hpid
      have hf := handleServerMessage_playerLeft_fields s pid2
      rw [hf.1] at hpid
      have hne : ¬pid = pid2 := fun hcon => hm (hpid.trans (congrArg some hcon))
      rw [hf.2.2.2, hf.2.1, jsGet_jsDelete, if_neg hne]
      exact h pid hpid
  | unknownAction a =>
      intro pid hpid
      exact h pid hpid

theorem claim4_witness :
    myPlayerAligned sampleTwoPlayerState ∧
    eventKeepsAlias sampleTwoPlayerState (InMessage.playerLeft "p2") ∧
    (myPlayerAligned (handleServerMessage sampleTwoPlayerState
        (InMessage.playerLeft "p2")) ∧
      (∀ pid, ((handleServerMessage sampleTwoPlayerState
          (InMessage.playerLeft "p2")).players.map Prod.fst).Nodup →
        ((handleServerMessage sampleTwoPlayerState
          (InMessage.playerLeft "p2")).players.map Prod.fst).count pid ≤ 1)) := by
  have hal : myPlayerAligned sampleTwoPlayerState := by
    intro pid hpid
    rw [← Option.some.inj hpid]
    decide
  have hev : sampleTwoPlayerState.playerId ≠ some "p2" := by decide
  exact ⟨hal, hev,
    claim4_amended_alias sampleTwoPlayerState (InMessage.playerLeft "p2")
      hal hev⟩

def sampleAvatarA : AvatarDef :=
  { name := "a1", frames := [("south", ["s0"])] }

def sampleAvatarA2 : AvatarDef :=
  { name := "a1", frames := [("south", ["s0x"])] }

/-- C5 fails as stated: a second `player_joined` frame whose avatar reuses an
already-stored key overwrites the stored definition (`this.avatars[name] =
avatar` is an unconditional assignment). -/
theorem claim5_counterexample :
    jsGet (handleServerMessage (initGameState 800 600)
        (InMessage.playerJoined sampleEntityA sampleAvatarA)).avatars "a1"
      = some sampleAvatarA ∧
    jsGet (handleServerMessage (handleServerMessage (initGameState 800 600)
        (InMessage.playerJoined sampleEntityA sampleAvatarA))
        (InMessage.playerJoined sampleEntityB sampleAvatarA2)).avatars "a1"
      = some sampleAvatarA2 ∧
    sampleAvatarA2 ≠ sampleAvatarA :=
  ⟨by decide, by decide, by decide⟩

/-- Inbound events that leave the avatar entry stored under `k` alone:
anything except a join-accepted snapshot (which replaces the whole catalog)
or a `player_joined` whose avatar is keyed `k` (which overwrites the
entry). -/
def eventKeepsAvatar (k : String) : InMessage → Prop
  | InMessage.joinGameSuccess _ _ _ => False
  | InMessage.playerJoined _ a => a.name ≠ k
  | _ => True

/-- C5 (amended): the avatar definition stored under a key is unchanged by
every subsequent inbound event except a join-accepted snapshot (which
replaces the whole catalog) or a `player_joined` whose avatar carries the
same key (which overwrites the stored definition). -/
theorem claim5_amended_avatar_immutability (s : GameState) (m : InMessage)
    (k : String) (hm : eventKeepsAvatar k m) :
    jsGet (handleServerMessage s m).avatars k = jsGet s.avatars k := by
  cases m with
  | joinGameSuccess pid ps avs => exact hm.elim
  | joinGameFailure err => rfl
  | playerJoined p a =>
      have hf := handleServerMessage_playerJoined_fields s p a
      rw [hf.2.2.1, jsGet_jsSet, if_neg fun h2 => hm h2.symm]
  | playersMoved upd =>
      have hf := handleServerMessage_playersMoved_fields s upd
      rw [hf.2.2.1]
  | playerLeft pid => rfl
  | unknownAction a => rfl

theorem claim5_witness :
    eventKeepsAvatar "a1" (InMessage.playerLeft "p2") ∧
    jsGet (handleServerMessage sampleTwoPlayerState
        (InMessage.playerLeft "p2")).avatars "a1"
      = jsGet sampleTwoPlayerState.avatars "a1" :=
  ⟨trivial, claim5_amended_avatar_immutability sampleTwoPlayerState
    (InMessage.playerLeft "p2") "a1" trivial⟩

def sampleNullKeyEntity : Entity :=
  { id := "null", x := 2000, y := 2000, facing := "south",
    animationFrame := 0, avatar := "a1", username := "Nil" }

/-- C10 fails as stated: before a join (`playerId` still `null`), the lookup
`message.players[this.playerId]` coerces the `null` key to the property key
`"null"`, so a `players_moved` payload with an entry under the literal key
`"null"` is mistaken for the local player — `myPlayer` is set and the
viewport recentres. -/
theorem claim10_counterexample :
    (initGameState 800 600).playerId = none ∧
    (handleServerMessage (initGameState 800 600)
        (InMessage.playersMoved [("null", sampleNullKeyEntity)])).myPlayer
      = some sampleNullKeyEntity ∧
    (handleServerMessage (initGameState 800 600)
        (InMessage.playersMoved [("null", sampleNullKeyEntity)])).viewportX
      = 1248 ∧
    (initGameState 800 600).viewportX = 0 ∧
    (initGameState 800 600).myPlayer = none := by
  refine ⟨rfl, by decide, ?_, rfl, rfl⟩
  show max 0 (min ((2000 : ℚ) - 800 / 2) (2048 - 800)) = 1248
  rw [min_eq_right (by norm_num), max_eq_right (by norm_num)]
  norm_num

/-- C10 (amended): before a successful join (`playerId` still `null`), a
`players_moved` event merges the entity table as usual and — provided its
payload carries no entry under the literal key `"null"` — leaves the
local-player reference, the viewport offset and the session id unchanged. -/
theorem claim10_amended_playersMoved_before_join (s : GameState)
    (upd : JsObj Entity) (h : s.playerId = none)
    (hu : jsGet upd "null" = none) :
    (handleServerMessage s (InMessage.playersMoved upd)).players
      = jsAssign s.players upd ∧
    (handleServerMessage s (InMessage.playersMoved upd)).myPlayer
      = s.myPlayer ∧
    (handleServerMessage s (InMessage.playersMoved upd)).viewportX
      = s.viewportX ∧
    (handleServerMessage s (InMessage.playersMoved upd)).viewportY
      = s.viewportY ∧
    (handleServerMessage s (InMessage.playersMoved upd)).playerId = none := by
  have hq : jsGet upd (playerIdKey none) = none := hu
  simp [handleServerMessage, h, hq]

theorem claim10_witness :
    (initGameState 800 600).playerId = none ∧
    jsGet ([("p2", sampleEntityB2)] : JsObj Entity) "null" = none ∧
    ((handleServerMessage (initGameState 800 600)
        (InMessage.playersMoved [("p2", sampleEntityB2)])).players
      = jsAssign (initGameState 800 600).players [("p2", sampleEntityB2)] ∧
    (handleServerMessage (initGameState 800 600)
        (InMessage.playersMoved [("p2", sampleEntityB2)])).myPlayer
      = (initGameState 800 600).myPlayer ∧
    (handleServerMessage (initGameState 800 600)
        (InMessage.playersMoved [("p2", sampleEntityB2)])).viewportX
      = (initGameState 800 600).viewportX ∧
    (handleServerMessage (initGameState 800 600)
        (InMessage.playersMoved [("p2", sampleEntityB2)])).viewportY
      = (initGameState 800 600).viewportY ∧
    (handleServerMessage (initGameState 800 600)
        (InMessage.playersMoved [("p2", sampleEntityB2)])).playerId = none) :=
  ⟨rfl, by decide,
    claim10_amended_playersMoved_before_join (initGameState 800 600)
      [("p2", sampleEntityB2)] rfl (by decide)⟩

end Game
